import Mathlib

/-!
Verification of the alert-email-digest core: the FireEye alert body parser
(`src/parsers/fireeye.py` and the older copy in `src/maIn.py`), the ipinfo
attribution formatter (`src/enrich/ipinfo_enrichment.py`), and the digest
assembler (`iter_alert_lines` in `src/parsers/fireeye.py`).

The Python code is shallowly embedded over Lean `String`s (viewed as their
`List Char` data).  Python string semantics are modelled over the ASCII
fragment: the `\s` regex class and `str.strip` use the six ASCII whitespace
characters, `\d` is `0`-`9`, and `re.IGNORECASE` folds ASCII letters.
External collaborators are parameters: `json.loads` is a `decode` oracle
returning an optional `PyJson` value (with `none` standing for a raised
decode error), and the ipinfo `handler.getDetails(...).all` call is a
`getDetails` oracle returning an optional `IpDetails` record (with `none`
standing for a raised exception).
-/

/-- Whitespace class used by Python's `str.strip` / regex `\s` (ASCII fragment). -/
def isPySpace (c : Char) : Bool :=
  c = ' ' || c = '\t' || c = '\n' || c = '\r' || c = '\x0b' || c = '\x0c'

/-- Characters at which Python's `str.splitlines` breaks lines. -/
def isLineBreak (c : Char) : Bool :=
  c = '\n' || c = '\r' || c = '\x0b' || c = '\x0c' ||
  c = '\x1c' || c = '\x1d' || c = '\x1e' || c = '\x85' ||
  c = '\u2028' || c = '\u2029'

/-- Python `str.strip()` on a character list. -/
def pyStripList (cs : List Char) : List Char :=
  ((cs.dropWhile isPySpace).reverse.dropWhile isPySpace).reverse

/-- Python `str.strip()`. -/
def pyStrip (s : String) : String :=
  ⟨pyStripList s.data⟩

/-- Boolean prefix test on character lists. -/
def listPfx : List Char → List Char → Bool
  | [], _ => true
  | _ :: _, [] => false
  | a :: as, b :: bs => a = b && listPfx as bs

/-- Python `str.startswith`. -/
def pyStartsWith (s pre : String) : Bool :=
  listPfx pre.data s.data

/-- Python `str.endswith`. -/
def pyEndsWith (s suf : String) : Bool :=
  listPfx suf.data.reverse s.data.reverse

/-- Python substring containment (`pat in s`). -/
def containsSubstr (s pat : String) : Bool :=
  s.data.tails.any (fun t => listPfx pat.data t)

/-- Python `str.replace(" ", "")`: remove every space character (U+0020 only). -/
def removeSpaces (s : String) : String :=
  ⟨s.data.filter (fun c => !(c = ' '))⟩

/-- Helper for Python `str.splitlines`, accumulating the current line reversed. -/
def pySplitlinesAux : List Char → List Char → List (List Char)
  | [], acc => if acc.isEmpty then [] else [acc.reverse]
  | '\r' :: '\n' :: cs, acc => acc.reverse :: pySplitlinesAux cs []
  | c :: cs, acc =>
    if isLineBreak c then acc.reverse :: pySplitlinesAux cs []
    else pySplitlinesAux cs (c :: acc)

/-- Python `str.splitlines()`. -/
def pySplitlines (s : String) : List String :=
  (pySplitlinesAux s.data []).map (fun cs => ⟨cs⟩)

/-- ASCII case folding used to model `re.IGNORECASE` on ASCII keywords. -/
def asciiLower (c : Char) : Char :=
  if 'A' ≤ c && c ≤ 'Z' then Char.ofNat (c.toNat + 32) else c

/-- Consume a literal keyword case-insensitively; return the rest of the line. -/
def stripCI : List Char → List Char → Option (List Char)
  | [], cs => some cs
  | _ :: _, [] => none
  | k :: ks, c :: cs => if asciiLower c = k then stripCI ks cs else none

/-- Matcher for `SIG_RE = ^\s*(sig-name|sname)\s*:\s*(.*)\s*$` (IGNORECASE),
returning the captured value after the `.strip()` the caller applies.
The alternation tries `sig-name` first, as the regex engine does. -/
def sigMatch (cs : List Char) : Option (List Char) :=
  let cs := cs.dropWhile isPySpace
  let rest? :=
    match stripCI "sig-name".data cs with
    | some r => some r
    | none => stripCI "sname".data cs
  match rest? with
  | none => none
  | some r =>
    match r.dropWhile isPySpace with
    | ':' :: r' => some (pyStripList r')
    | _ => none

/-- Matcher for `SRC_RE = ^\s*src\s*:\s*$` (IGNORECASE). -/
def srcMatch (cs : List Char) : Bool :=
  let cs := cs.dropWhile isPySpace
  match stripCI "src".data cs with
  | none => false
  | some r =>
    match r.dropWhile isPySpace with
    | ':' :: r' => (r'.dropWhile isPySpace).isEmpty
    | _ => false

/-- Matcher for `IP_RE = ^\s*ip\s*:\s*(.*)\s*$` (IGNORECASE), returning the
captured value after the `.strip()` the caller applies. -/
def ipMatch (cs : List Char) : Option (List Char) :=
  let cs := cs.dropWhile isPySpace
  match stripCI "ip".data cs with
  | none => none
  | some r =>
    match r.dropWhile isPySpace with
    | ':' :: r' => some (pyStripList r')
    | _ => none

/-- How the line-mode loop body reacts to one line: the three regexes are
tried in source order (`SIG_RE`, then `SRC_RE`, then `IP_RE`). -/
inductive LineKind where
  | sig (v : String)
  | srcMark
  | addr (v : String)
  | other
deriving DecidableEq

/-- Classification of one line by the three regexes, in the order the source
checks them. -/
def classify (line : String) : LineKind :=
  match sigMatch line.data with
  | some v => .sig ⟨v⟩
  | none =>
    if srcMatch line.data then .srcMark
    else
      match ipMatch line.data with
      | some v => .addr ⟨v⟩
      | none => .other

/-- The mutable state of the line-mode loop: the three accumulators and the
`expecting_src_ip` flag. -/
structure ScanSt where
  sig : String
  src : String
  dst : String
  armed : Bool
deriving DecidableEq

/-- One iteration of the line-mode loop (`for line in body.splitlines()`):
a signature line overwrites `sig_name`, a bare `src:` line arms the flag,
an `ip:` line goes to `src_ip` (disarming) if the flag is armed and to
`dst_ip` otherwise; all other lines are ignored. -/
def scanStep (st : ScanSt) (k : LineKind) : ScanSt :=
  match k with
  | .sig v => { st with sig := v }
  | .srcMark => { st with armed := true }
  | .addr v => if st.armed then { st with src := v, armed := false } else { st with dst := v }
  | .other => st

/-- The full line-mode scan: fold the loop body over the body's lines starting
from empty accumulators and a lowered flag, and return the three accumulators. -/
def lineScan (lines : List String) : String × String × String :=
  let st := (lines.map classify).foldl scanStep ⟨"", "", "", false⟩
  (st.sig, st.src, st.dst)

namespace MaIn

/-- Line-mode-only parser `parse_fireeye_email_body` from `src/maIn.py`
(lines 30-59): the stateful scan over `body.splitlines()`. -/
def parse_fireeye_email_body (body : String) : String × String × String :=
  lineScan (pySplitlines body)

end MaIn

/-- Values produced by `json.loads`: Python's decoded JSON universe (numbers
restricted to integers, which covers the fixtures; dict fields carried as an
association list with distinct keys, as produced by the decoder). -/
inductive PyJson where
  | null
  | bool (b : Bool)
  | num (n : Int)
  | str (s : String)
  | arr (xs : List PyJson)
  | obj (fields : List (String × PyJson))

/-- Association-list lookup for decoded JSON objects (`dict.__getitem__`). -/
def lookupField : List (String × PyJson) → String → Option PyJson
  | [], _ => none
  | (k', v) :: fs, k => if k' = k then some v else lookupField fs k

/-- Python `d.get(key)` on a decoded value: `none` when the receiver is not a
dict or the key is absent. -/
def jsonGet : PyJson → String → Option PyJson
  | .obj fs, k => lookupField fs k
  | _, _ => none

/-- Python truthiness of a decoded JSON value. -/
def jTruthy : PyJson → Bool
  | .null => false
  | .bool b => b
  | .num n => n != 0
  | .str s => !(s = "")
  | .arr xs => !xs.isEmpty
  | .obj fs => !fs.isEmpty

/-- Embedding of `(x.get(key) or "").strip()` applied to an optional decoded
value: an absent key or a falsy value yields `""`; a text value is stripped;
a truthy non-text value raises `AttributeError` on `.strip()`, modelled as
`none`. -/
def pyOrEmptyStrip (v : Option PyJson) : Option String :=
  match v with
  | none => some ""
  | some (.str s) => some (pyStrip s)
  | some j => if jTruthy j then none else some ""

/-- Helper `_get_nested` from `src/parsers/fireeye.py` (lines 17-23): walk a
key path, returning `""` when an intermediate is not a dict, a key is absent,
or the final value is not text. -/
def _get_nested : PyJson → List String → String
  | d, [] => match d with | .str s => s | _ => ""
  | d, k :: rest =>
    match d with
    | .obj fs =>
      match lookupField fs k with
      | none => ""
      | some v => _get_nested v rest
    | _ => ""

namespace Fireeye

/-- The `try:` block of structured mode in `src/parsers/fireeye.py`
(lines 41-64) after a successful `json.loads`: read `alert.src.ip`,
`alert.dst.ip` and `alert.explanation.ips-detected.sig-name` through the
`isinstance` guards of the source.  `none` models an exception escaping the
block (a truthy non-text leaf under `.strip()`). -/
def structuredFields (payload : PyJson) : Option (String × String × String) := do
  let alert :=
    match payload with
    | .obj _ => (jsonGet payload "alert").getD (.obj [])
    | _ => .obj []
  let src :=
    match alert with
    | .obj _ => (jsonGet alert "src").getD (.obj [])
    | _ => .obj []
  let dst :=
    match alert with
    | .obj _ => (jsonGet alert "dst").getD (.obj [])
    | _ => .obj []
  let src_ip ←
    match src with
    | .obj _ => pyOrEmptyStrip (jsonGet src "ip")
    | _ => some ""
  let dst_ip ←
    match dst with
    | .obj _ => pyOrEmptyStrip (jsonGet dst "ip")
    | _ => some ""
  let explanation :=
    match alert with
    | .obj _ => (jsonGet alert "explanation").getD (.obj [])
    | _ => .obj []
  let sig_name ←
    match explanation with
    | .obj _ =>
      let ips_detected := (jsonGet explanation "ips-detected").getD (.obj [])
      match ips_detected with
      | .obj _ => pyOrEmptyStrip (jsonGet ips_detected "sig-name")
      | _ => some ""
    | _ => some ""
  pure (sig_name, src_ip, dst_ip)

/-- The brace test guarding structured mode:
`text.startswith("\x7b") and text.endswith("\x7d")`. -/
def braced (text : String) : Bool :=
  pyStartsWith text "\x7b" && pyEndsWith text "\x7d"

/-- The whole structured-mode attempt of `parse_fireeye_email_body`
(lines 37-66): `some r` means the function returns `r` immediately; `none`
means control falls through to line mode (body not brace-delimited, decode
error, an exception inside the `try:` block, or all three fields empty). -/
def structuredAttempt (decode : String → Option PyJson) (body : String) :
    Option (String × String × String) :=
  let text := pyStrip body
  if braced text then
    match decode text with
    | none => none
    | some payload =>
      match structuredFields payload with
      | none => none
      | some (sig_name, src_ip, dst_ip) =>
        if sig_name ≠ "" ∨ src_ip ≠ "" ∨ dst_ip ≠ "" then some (sig_name, src_ip, dst_ip)
        else none
  else none

/-- Function `parse_fireeye_email_body` from `src/parsers/fireeye.py` (lines 26-92):
JSON-first attempt, then the stateful line-mode scan over the raw body.
`decode` is the `json.loads` collaborator. -/
def parse_fireeye_email_body (decode : String → Option PyJson) (body : String) :
    String × String × String :=
  match structuredAttempt decode body with
  | some r => r
  | none => lineScan (pySplitlines body)

end Fireeye

namespace Enrich

/-- Consume one leading ASCII digit if present (used for the greedy `\d{1,3}`;
digits, `.` and end-of-input are mutually exclusive here, so the greedy
strategy is exact for this pattern). -/
def dropDigit : List Char → List Char
  | [] => []
  | c :: cs => if c.isDigit then cs else c :: cs

/-- Match `\d{1,3}` greedily: one mandatory digit, then up to two more. -/
def matchGroup : List Char → Option (List Char)
  | [] => none
  | c :: cs => if c.isDigit then some (dropDigit (dropDigit cs)) else none

/-- Match `\.\d{1,3}` greedily. -/
def matchDotGroup : List Char → Option (List Char)
  | [] => none
  | c :: cs => if c = '.' then matchGroup cs else none

/-- Match `\d{1,3}(\.\d{1,3}){3}`, returning the unmatched rest. -/
def matchQuad (cs : List Char) : Option (List Char) :=
  (((matchGroup cs).bind matchDotGroup).bind matchDotGroup).bind matchDotGroup

/-- The shape check `re.match(r"^\d{1,3}(\.\d{1,3}){3}$", ip)` of
`safe_ipinfo_lookup` (`src/enrich/ipinfo_enrichment.py`, line 14).  In Python
(without `re.MULTILINE`) `$` matches at the end of the string or just before
a single newline that ends the string, so the rest after the quad must be
empty or exactly `"\n"`. -/
def ipShapeCheck (ip : String) : Bool :=
  match matchQuad ip.data with
  | some r => r.isEmpty || r = ['\n']
  | none => false

/-- Modelled from the claim's words: the strict dotted-quad shape — four
groups of 1-3 digits separated by dots, consuming the entire string with no
trailing characters at all. -/
def specDottedQuad (s : String) : Bool :=
  match matchQuad s.data with
  | some [] => true
  | _ => false

/-- The detail record returned by `handler.getDetails(ip).all`: the three
sub-fields read by the formatter, each possibly absent. -/
structure IpDetails where
  city : Option String
  country_name : Option String
  org : Option String

/-- The composition `f"from \x7bcity\x7d, \x7bcountry\x7d (\x7borg\x7d)".strip()`
with `details.get(...) or ""` for each sub-field. -/
def composeAttribution (d : IpDetails) : String :=
  pyStrip ("from " ++ d.city.getD "" ++ ", " ++ d.country_name.getD "" ++
    " (" ++ d.org.getD "" ++ ")")

/-- The part of `safe_ipinfo_lookup` after the shape check: call the external
lookup (`none` models a raised exception), compose the attribution text,
normalize it by removing spaces, and collapse it to absence when the
degenerate pattern `"from,()"` occurs in it as a substring (the source also
redundantly tests set membership, i.e. equality). -/
def lookupFormat (getDetails : String → Option IpDetails) (ip : String) : Option String :=
  match getDetails ip with
  | none => none
  | some details =>
    let out := composeAttribution details
    let normalized := removeSpaces out
    if containsSubstr normalized "from,()" ∨ normalized = "from,()" then none
    else some out

/-- Function `safe_ipinfo_lookup` from `src/enrich/ipinfo_enrichment.py` (lines 9-31):
reject addresses failing the shape check without consulting the lookup, then
format the external lookup's detail record. -/
def safe_ipinfo_lookup (getDetails : String → Option IpDetails) (ip : String) :
    Option String :=
  if ipShapeCheck ip then lookupFormat getDetails ip else none

end Enrich

namespace Fireeye

/-- One unread message as seen by `iter_alert_lines`: the body text
(`getattr(msg, "Body", "") or ""`) and the optional sent time, carried as the
string `str(sent_on.time())` when `SentOn` is present (`datetime.time`
objects are always truthy). -/
structure AlertMsg where
  body : String
  sentTime : Option String

/-- Function `iter_alert_lines` from `src/parsers/fireeye.py` (lines 110-133): for
each message, in order, yield the header line, the source line, and the
attribution line.  The ipinfo handler is abstracted to its presence
(`hasHandler`), and `ip_lookup_fn` (already applied to the handler) to a
`lookupFn` oracle; the mark-as-read side effect has no bearing on the yielded
lines. -/
def iter_alert_lines (decode : String → Option PyJson) (hasHandler : Bool)
    (lookupFn : String → Option String) : List AlertMsg → List String
  | [] => []
  | msg :: rest =>
    let parsed := parse_fireeye_email_body decode msg.body
    let sig_name := parsed.1
    let src_ip := parsed.2.1
    let dst_ip := parsed.2.2
    let time_str :=
      match msg.sentTime with
      | some t => t
      | none => "UnknownTime"
    (time_str ++ ": " ++ (if sig_name = "" then "UnknownSig" else sig_name) ++
        " - " ++ (if dst_ip = "" then "UnknownDst" else dst_ip) ++ "\n") ::
    ("\t\tSource: " ++ (if src_ip = "" then "UnknownSrc" else src_ip) ++ "\n") ::
    (if hasHandler ∧ src_ip ≠ "" then
      match lookupFn (pyStrip src_ip) with
      | some attribution =>
        if attribution = "" then "\t\tUNIDENTIFIED\n" else "\t\t" ++ attribution ++ "\n"
      | none => "\t\tUNIDENTIFIED\n"
    else "\t\tUNIDENTIFIED\n") ::
    iter_alert_lines decode hasHandler lookupFn rest

end Fireeye

/-! ### Declarative characterization of the line-mode scan -/

/-- Value of a signature line, if any. -/
def sigValOf : LineKind → Option String
  | .sig v => some v
  | _ => none

/-- The lines that interact with the source/destination state machine:
`src:` markers and address lines. -/
def isRelevant : LineKind → Bool
  | .srcMark => true
  | .addr _ => true
  | _ => false

/-- Last element of a list, or a default: the "last one wins" accumulator. -/
def lastD (xs : List String) (d : String) : String :=
  xs.getLast?.getD d

/-- Address values captured as source, given the armed state of the flag:
an address line consumes an armed flag, a marker arms it, and signature or
unmatched lines leave it untouched. -/
def capsFrom : Bool → List LineKind → List String
  | _, [] => []
  | _, .srcMark :: ks => capsFrom true ks
  | armed, .addr v :: ks => if armed then v :: capsFrom false ks else capsFrom false ks
  | armed, .sig _ :: ks => capsFrom armed ks
  | armed, .other :: ks => capsFrom armed ks

/-- Address values written to the destination accumulator, given the armed
state of the flag. -/
def dstsFrom : Bool → List LineKind → List String
  | _, [] => []
  | _, .srcMark :: ks => dstsFrom true ks
  | armed, .addr v :: ks => if armed then dstsFrom false ks else v :: dstsFrom false ks
  | armed, .sig _ :: ks => dstsFrom armed ks
  | armed, .other :: ks => dstsFrom armed ks

/-- Armed state of the flag after a list of lines. -/
def armedAfter : Bool → List LineKind → Bool
  | armed, [] => armed
  | _, .srcMark :: ks => armedAfter true ks
  | _, .addr _ :: ks => armedAfter false ks
  | armed, .sig _ :: ks => armedAfter armed ks
  | armed, .other :: ks => armedAfter armed ks

/-- Each relevant line paired with the relevant line immediately preceding it
(`none` for the first one). -/
def withPrevRel (ks : List LineKind) : List (Option LineKind × LineKind) :=
  let rs := ks.filter isRelevant
  (none :: rs.map some).zip rs

/-- A source capture: an address line whose immediately preceding relevant
line is a `src:` marker. -/
def captureVal : Option LineKind × LineKind → Option String
  | (some .srcMark, .addr v) => some v
  | _ => none

/-- A destination write: an address line not immediately preceded (among
relevant lines) by a `src:` marker. -/
def destVal : Option LineKind × LineKind → Option String
  | (some .srcMark, _) => none
  | (_, .addr v) => some v
  | _ => none

/-- Declarative signature result: the value of the last signature line. -/
def specSig (ks : List LineKind) : String :=
  lastD (ks.filterMap sigValOf) ""

/-- Declarative source result: the value of the last source capture. -/
def specSrc (ks : List LineKind) : String :=
  lastD ((withPrevRel ks).filterMap captureVal) ""

/-- Declarative destination result: the value of the last destination write. -/
def specDst (ks : List LineKind) : String :=
  lastD ((withPrevRel ks).filterMap destVal) ""

/-- Whether an optional preceding relevant line leaves the flag armed. -/
def prevArm : Option LineKind → Bool
  | some .srcMark => true
  | _ => false

/-- Modelled from the claim's words for C4: a composed string with all
whitespace characters removed (the code itself removes only spaces). -/
def specStripAllWs (s : String) : String :=
  ⟨s.data.filter (fun c => !isPySpace c)⟩

/-- The spec's structured-mode example body (section 8 of the spec). -/
def exampleJsonBody : String :=
  "\x7b\"alert\": \x7b\"src\": \x7b\"ip\": \"203.0.113.9\"\x7d, \"dst\": \x7b\"ip\": \"198.51.100.88\"\x7d, \"explanation\": \x7b\"ips-detected\": \x7b\"sig-name\": \"Test Signature\"\x7d\x7d\x7d\x7d"

/-- The decoded value of `exampleJsonBody` under `json.loads`. -/
def exampleJsonValue : PyJson :=
  .obj [("alert", .obj
    [("src", .obj [("ip", .str "203.0.113.9")]),
     ("dst", .obj [("ip", .str "198.51.100.88")]),
     ("explanation", .obj [("ips-detected", .obj [("sig-name", .str "Test Signature")])])])]

/-- A `json.loads` oracle defined on `exampleJsonBody`. -/
def exampleDecode : String → Option PyJson :=
  fun s => if s = exampleJsonBody then some exampleJsonValue else none

/-- A JSON body whose `alert.src.ip` is a truthy non-text value (the number
42) while `alert.dst.ip` is non-empty text. -/
def numericSrcBody : String :=
  "\x7b\"alert\": \x7b\"src\": \x7b\"ip\": 42\x7d, \"dst\": \x7b\"ip\": \"198.51.100.10\"\x7d\x7d\x7d"

/-- The decoded value of `numericSrcBody` under `json.loads`. -/
def numericSrcValue : PyJson :=
  .obj [("alert", .obj
    [("src", .obj [("ip", .num 42)]),
     ("dst", .obj [("ip", .str "198.51.100.10")])])]

/-- A `json.loads` oracle defined on `numericSrcBody`. -/
def numericSrcDecode : String → Option PyJson :=
  fun s => if s = numericSrcBody then some numericSrcValue else none

/-- A well-formed JSON body lacking all three expected keys. -/
def inertJsonBody : String := "\x7b\"alpha\": \"beta\"\x7d"

/-- The decoded value of `inertJsonBody` under `json.loads`. -/
def inertJsonValue : PyJson := .obj [("alpha", .str "beta")]

/-- A `json.loads` oracle defined on `inertJsonBody`. -/
def inertJsonDecode : String → Option PyJson :=
  fun s => if s = inertJsonBody then some inertJsonValue else none

/-- A lookup detail record whose city field itself contains the degenerate
pattern, alongside meaningful country and organization text. -/
def degenerateCityDetails : Enrich.IpDetails :=
  ⟨some "from,()", some "C", some "O"⟩

/-- The spec's Ashburn example detail record. -/
def ashburnDetails : Enrich.IpDetails :=
  ⟨some "Ashburn", some "United States", some "AS0 Example"⟩

theorem lastD_cons (v : String) (xs : List String) (d : String) :
    lastD (v :: xs) d = lastD xs v := by
  cases xs with
  | nil => rfl
  | cons y ys =>
    simp only [lastD, List.getLast?_cons_cons]
    have h : (y :: ys).getLast?.isSome := List.getLast?_isSome.mpr (by simp)
    obtain ⟨a, ha⟩ := Option.isSome_iff_exists.mp h
    rw [ha]
    rfl

/-- Master characterization of the line-mode fold: from any starting state,
the final signature is the last signature value (defaulting to the initial
one), the final source is the last captured address, the final destination
the last non-captured address, and the flag is `armedAfter`. -/
theorem foldl_scan_char (ks : List LineKind) : ∀ st : ScanSt,
    ks.foldl scanStep st =
      ⟨lastD (ks.filterMap sigValOf) st.sig,
       lastD (capsFrom st.armed ks) st.src,
       lastD (dstsFrom st.armed ks) st.dst,
       armedAfter st.armed ks⟩ := by
  induction ks with
  | nil => intro st; simp [lastD, capsFrom, dstsFrom, armedAfter]
  | cons k ks ih =>
    intro st
    cases k with
    | sig v =>
      simp only [List.foldl_cons, scanStep, ih, List.filterMap_cons, sigValOf,
        capsFrom, dstsFrom, armedAfter, lastD_cons]
    | srcMark =>
      simp only [List.foldl_cons, scanStep, ih, List.filterMap_cons, sigValOf,
        capsFrom, dstsFrom, armedAfter]
    | addr v =>
      by_cases h : st.armed = true
      · simp only [List.foldl_cons, scanStep, h, if_true, ih, List.filterMap_cons,
          sigValOf, capsFrom, dstsFrom, armedAfter, lastD_cons]
      · simp only [Bool.not_eq_true] at h
        simp only [List.foldl_cons, scanStep, h, Bool.false_eq_true, if_false, ih,
          List.filterMap_cons, sigValOf, capsFrom, dstsFrom, armedAfter, lastD_cons]
    | other =>
      simp only [List.foldl_cons, scanStep, ih, List.filterMap_cons, sigValOf,
        capsFrom, dstsFrom, armedAfter]

theorem capsFrom_filter (ks : List LineKind) :
    ∀ a, capsFrom a (ks.filter isRelevant) = capsFrom a ks := by
  induction ks with
  | nil => intro a; rfl
  | cons k ks ih =>
    intro a
    cases k with
    | sig v => simpa [List.filter, isRelevant, capsFrom] using ih a
    | srcMark => simpa [List.filter, isRelevant, capsFrom] using ih true
    | addr v =>
      by_cases h : a = true
      · simp [List.filter, isRelevant, capsFrom, h, ih false]
      · simp only [Bool.not_eq_true] at h
        simp [List.filter, isRelevant, capsFrom, h, ih false]
    | other => simpa [List.filter, isRelevant, capsFrom] using ih a

theorem dstsFrom_filter (ks : List LineKind) :
    ∀ a, dstsFrom a (ks.filter isRelevant) = dstsFrom a ks := by
  induction ks with
  | nil => intro a; rfl
  | cons k ks ih =>
    intro a
    cases k with
    | sig v => simpa [List.filter, isRelevant, dstsFrom] using ih a
    | srcMark => simpa [List.filter, isRelevant, dstsFrom] using ih true
    | addr v =>
      by_cases h : a = true
      · simp [List.filter, isRelevant, dstsFrom, h, ih false]
      · simp only [Bool.not_eq_true] at h
        simp [List.filter, isRelevant, dstsFrom, h, ih false]
    | other => simpa [List.filter, isRelevant, dstsFrom] using ih a

theorem zip_caps (rs : List LineKind) :
    ∀ p : Option LineKind, (∀ k ∈ rs, isRelevant k = true) →
      ((p :: rs.map some).zip rs).filterMap captureVal = capsFrom (prevArm p) rs := by
  induction rs with
  | nil => intro p _; rfl
  | cons k rs ih =>
    intro p h
    have hk : isRelevant k = true := h k (by simp)
    have hrest : ∀ k' ∈ rs, isRelevant k' = true := fun k' hk' => h k' (by simp [hk'])
    cases k with
    | sig v => simp [isRelevant] at hk
    | other => simp [isRelevant] at hk
    | srcMark =>
      have : captureVal (p, .srcMark) = none := by
        cases p with
        | none => rfl
        | some pk => cases pk <;> rfl
      simp [List.zip_cons_cons, List.filterMap_cons, this, ih (some .srcMark) hrest,
        capsFrom, prevArm]
    | addr v =>
      have hrec := ih (some (.addr v)) hrest
      cases p with
      | none =>
        simp [List.zip_cons_cons, List.filterMap_cons, captureVal, hrec, capsFrom, prevArm]
      | some pk =>
        cases pk with
        | srcMark =>
          simp [List.zip_cons_cons, List.filterMap_cons, captureVal, hrec, capsFrom,
            prevArm, lastD_cons]
        | sig w =>
          simp [List.zip_cons_cons, List.filterMap_cons, captureVal, hrec, capsFrom, prevArm]
        | addr w =>
          simp [List.zip_cons_cons, List.filterMap_cons, captureVal, hrec, capsFrom, prevArm]
        | other =>
          simp [List.zip_cons_cons, List.filterMap_cons, captureVal, hrec, capsFrom, prevArm]

theorem zip_dsts (rs : List LineKind) :
    ∀ p : Option LineKind, (∀ k ∈ rs, isRelevant k = true) →
      ((p :: rs.map some).zip rs).filterMap destVal = dstsFrom (prevArm p) rs := by
  induction rs with
  | nil => intro p _; rfl
  | cons k rs ih =>
    intro p h
    have hk : isRelevant k = true := h k (by simp)
    have hrest : ∀ k' ∈ rs, isRelevant k' = true := fun k' hk' => h k' (by simp [hk'])
    cases k with
    | sig v => simp [isRelevant] at hk
    | other => simp [isRelevant] at hk
    | srcMark =>
      have : destVal (p, .srcMark) = none := by
        cases p with
        | none => rfl
        | some pk => cases pk <;> rfl
      simp [List.zip_cons_cons, List.filterMap_cons, this, ih (some .srcMark) hrest,
        dstsFrom, prevArm]
    | addr v =>
      have hrec := ih (some (.addr v)) hrest
      cases p with
      | none =>
        simp [List.zip_cons_cons, List.filterMap_cons, destVal, hrec, dstsFrom, prevArm]
      | some pk =>
        cases pk with
        | srcMark =>
          simp [List.zip_cons_cons, List.filterMap_cons, destVal, hrec, dstsFrom, prevArm]
        | sig w =>
          simp [List.zip_cons_cons, List.filterMap_cons, destVal, hrec, dstsFrom, prevArm]
        | addr w =>
          simp [List.zip_cons_cons, List.filterMap_cons, destVal, hrec, dstsFrom, prevArm]
        | other =>
          simp [List.zip_cons_cons, List.filterMap_cons, destVal, hrec, dstsFrom, prevArm]

/-- The operational line scan computes exactly the declarative triple. -/
theorem lineScan_eq_spec (lines : List String) :
    lineScan lines =
      (specSig (lines.map classify), specSrc (lines.map classify),
       specDst (lines.map classify)) := by
  have hmem : ∀ k ∈ (lines.map classify).filter isRelevant, isRelevant k = true :=
    fun k hk => (List.mem_filter.mp hk).2
  have hcaps := zip_caps ((lines.map classify).filter isRelevant) none hmem
  have hdsts := zip_dsts ((lines.map classify).filter isRelevant) none hmem
  simp only [lineScan, foldl_scan_char]
  simp only [specSig, specSrc, specDst, withPrevRel, hcaps, hdsts, prevArm,
    capsFrom_filter, dstsFrom_filter]

/-! ### Shared helper lemmas -/

theorem structuredAttempt_not_braced (decode : String → Option PyJson) (body : String)
    (h : Fireeye.braced (pyStrip body) = false) :
    Fireeye.structuredAttempt decode body = none := by
  unfold Fireeye.structuredAttempt
  simp [h]

theorem parse_of_attempt_none (decode : String → Option PyJson) (body : String)
    (h : Fireeye.structuredAttempt decode body = none) :
    Fireeye.parse_fireeye_email_body decode body = lineScan (pySplitlines body) := by
  unfold Fireeye.parse_fireeye_email_body
  rw [h]

theorem foldl_other (ks : List LineKind) :
    ∀ st : ScanSt, (∀ k ∈ ks, k = LineKind.other) → ks.foldl scanStep st = st := by
  induction ks with
  | nil => intro st _; rfl
  | cons k ks ih =>
    intro st h
    have hk : k = LineKind.other := h k (by simp)
    subst hk
    have : ∀ k' ∈ ks, k' = LineKind.other := fun k' hk' => h k' (by simp [hk'])
    simp only [List.foldl_cons, scanStep]
    exact ih st this

theorem lineScan_other (lines : List String)
    (h : ∀ l ∈ lines, classify l = LineKind.other) :
    lineScan lines = ("", "", "") := by
  have : ∀ k ∈ lines.map classify, k = LineKind.other := by
    intro k hk
    obtain ⟨l, hl, rfl⟩ := List.mem_map.mp hk
    exact h l hl
  simp only [lineScan, foldl_other _ _ this]

theorem listPfx_refl (l : List Char) : listPfx l l = true := by
  induction l with
  | nil => rfl
  | cons c cs ih => simp [listPfx, ih]

theorem containsSubstr_self (s : String) : containsSubstr s s = true := by
  unfold containsSubstr
  cases hs : s.data with
  | nil => rfl
  | cons c cs =>
    apply List.any_eq_true.mpr
    refine ⟨c :: cs, ?_, by simpa [hs] using listPfx_refl (c :: cs)⟩
    rw [List.tails]
    simp

theorem dropDigit_suffix (cs : List Char) : ∃ p, cs = p ++ Enrich.dropDigit cs := by
  cases cs with
  | nil => exact ⟨[], rfl⟩
  | cons c cs =>
    by_cases h : c.isDigit
    · exact ⟨[c], by simp [Enrich.dropDigit, h]⟩
    · exact ⟨[], by simp [Enrich.dropDigit, h]⟩

theorem matchGroup_suffix (cs r : List Char) (h : Enrich.matchGroup cs = some r) :
    ∃ p, cs = p ++ r := by
  cases cs with
  | nil => simp [Enrich.matchGroup] at h
  | cons c cs =>
    by_cases hd : c.isDigit
    · simp only [Enrich.matchGroup, hd, if_true, Option.some.injEq] at h
      obtain ⟨p1, hp1⟩ := dropDigit_suffix cs
      obtain ⟨p2, hp2⟩ := dropDigit_suffix (Enrich.dropDigit cs)
      refine ⟨c :: (p1 ++ p2), ?_⟩
      have hcs : cs = (p1 ++ p2) ++ r := by
        rw [List.append_assoc, ← h, ← hp2, ← hp1]
      rw [hcs, List.cons_append]
    · simp [Enrich.matchGroup, hd] at h

theorem matchDotGroup_suffix (cs r : List Char) (h : Enrich.matchDotGroup cs = some r) :
    ∃ p, cs = p ++ r := by
  cases cs with
  | nil => simp [Enrich.matchDotGroup] at h
  | cons c cs =>
    by_cases hc : c = '.'
    · subst hc
      obtain ⟨p, hp⟩ := matchGroup_suffix cs r (by simpa [Enrich.matchDotGroup] using h)
      exact ⟨'.' :: p, by rw [hp, List.cons_append]⟩
    · simp [Enrich.matchDotGroup, hc] at h

theorem matchQuad_suffix (cs r : List Char) (h : Enrich.matchQuad cs = some r) :
    ∃ p, cs = p ++ r := by
  unfold Enrich.matchQuad at h
  obtain ⟨r3, h3, hr⟩ := Option.bind_eq_some.mp h
  obtain ⟨r2, h2, h3⟩ := Option.bind_eq_some.mp h3
  obtain ⟨r1, h1, h2⟩ := Option.bind_eq_some.mp h2
  obtain ⟨p1, hp1⟩ := matchGroup_suffix cs r1 h1
  obtain ⟨p2, hp2⟩ := matchDotGroup_suffix r1 r2 h2
  obtain ⟨p3, hp3⟩ := matchDotGroup_suffix r2 r3 h3
  obtain ⟨p4, hp4⟩ := matchDotGroup_suffix r3 r hr
  refine ⟨((p1 ++ p2) ++ p3) ++ p4, ?_⟩
  rw [hp1, hp2, hp3, hp4]
  simp [List.append_assoc]

/-! ### Claims -/

/-- C1: in line mode the parser behaves as claimed: the source field is the
value of the last address line whose immediately preceding relevant line
(marker or address) is a `src:` marker — i.e. the single address line
following that marker, since an intervening address line would disarm it —
every other address line overwrites the destination accumulator, repeated
lines overwrite prior values (the last capture and the last destination
write win), and each further `src:` marker re-arms capture; on the spec's
four-line example body parse returns
("Test Alert", "203.0.113.45", "198.51.100.10"). -/
theorem C1_line_mode_capture :
    (∀ lines : List String,
      lineScan lines =
        (specSig (lines.map classify), specSrc (lines.map classify),
         specDst (lines.map classify)))
    ∧ (∀ decode : String → Option PyJson,
        Fireeye.parse_fireeye_email_body decode
          "sig-name: Test Alert\nsrc:\nip: 203.0.113.45\nip: 198.51.100.10\n" =
          ("Test Alert", "203.0.113.45", "198.51.100.10")) := by
  constructor
  · exact lineScan_eq_spec
  · intro decode
    rw [parse_of_attempt_none _ _ (structuredAttempt_not_braced _ _ (by decide))]
    decide

/-- C2: structured mode wins whenever it computes at least one non-empty
field: if the trimmed body is brace-delimited and decodes to a value whose
structured read completes as `(s, a, b)` with a non-empty component, parse
returns exactly `(s, a, b)`; if the decode raises, or the read completes
with all three fields empty, parse returns the line-mode scan of the raw
body text. -/
theorem C2_structured_dispatch :
    ∀ (decode : String → Option PyJson) (body : String),
      (∀ j s a b, Fireeye.braced (pyStrip body) = true →
        decode (pyStrip body) = some j →
        Fireeye.structuredFields j = some (s, a, b) →
        (s ≠ "" ∨ a ≠ "" ∨ b ≠ "") →
        Fireeye.parse_fireeye_email_body decode body = (s, a, b))
      ∧ (Fireeye.braced (pyStrip body) = true →
        decode (pyStrip body) = none →
        Fireeye.parse_fireeye_email_body decode body = lineScan (pySplitlines body))
      ∧ (∀ j, Fireeye.braced (pyStrip body) = true →
        decode (pyStrip body) = some j →
        Fireeye.structuredFields j = some ("", "", "") →
        Fireeye.parse_fireeye_email_body decode body = lineScan (pySplitlines body)) := by
  intro decode body
  refine ⟨?_, ?_, ?_⟩
  · intro j s a b hbr hdec hf hne
    unfold Fireeye.parse_fireeye_email_body Fireeye.structuredAttempt
    simp only [hbr, hdec, hf, if_true]
    rw [if_pos hne]
  · intro hbr hdec
    unfold Fireeye.parse_fireeye_email_body Fireeye.structuredAttempt
    simp only [hbr, hdec, if_true]
  · intro j hbr hdec hf
    unfold Fireeye.parse_fireeye_email_body Fireeye.structuredAttempt
    simp only [hbr, hdec, hf, if_true]
    rw [if_neg (by simp)]

/-- C2 witness: the spec's structured example body is returned exactly. -/
theorem C2_structured_dispatch_witness :
    Fireeye.parse_fireeye_email_body exampleDecode exampleJsonBody =
      ("Test Signature", "203.0.113.9", "198.51.100.88") :=
  (C2_structured_dispatch exampleDecode exampleJsonBody).1 exampleJsonValue
    "Test Signature" "203.0.113.9" "198.51.100.88" (by decide) rfl rfl
    (Or.inl (by decide))

/-- C3 counterexample: with `alert.src.ip` the truthy non-text value 42 and
`alert.dst.ip` the non-empty text "198.51.100.10", the claim predicts the
structured result ("", "", "198.51.100.10"); instead the `.strip()` call on
the numeric leaf raises, the exception is swallowed, and parse falls back
to line mode on the JSON text, returning ("", "", ""). -/
theorem C3_counterexample :
    _get_nested numericSrcValue ["alert", "dst", "ip"] = "198.51.100.10"
    ∧ Fireeye.parse_fireeye_email_body numericSrcDecode numericSrcBody = ("", "", "")
    ∧ Fireeye.parse_fireeye_email_body numericSrcDecode numericSrcBody ≠
        ("", "", "198.51.100.10") :=
  ⟨rfl, rfl, by decide⟩

/-- C3 amended: a missing key yields empty text, a falsy leaf (null, false,
0, empty text, empty array or object) yields empty text, and a text leaf is
stripped and returned, all without error; but a truthy non-text leaf raises
inside the `try:` block, the whole structured attempt is abandoned, and
parse falls back to line-mode scanning of the raw body — so the claim's
example returns ("", "", "") instead of keeping the destination. -/
theorem C3_nontext_fields :
    (pyOrEmptyStrip none = some "")
    ∧ (∀ j, jTruthy j = false → pyOrEmptyStrip (some j) = some "")
    ∧ (∀ s, pyOrEmptyStrip (some (.str s)) = some (pyStrip s))
    ∧ (∀ j, (∀ s, j ≠ .str s) → jTruthy j = true → pyOrEmptyStrip (some j) = none)
    ∧ (∀ (decode : String → Option PyJson) (body : String) (j : PyJson),
        Fireeye.braced (pyStrip body) = true →
        decode (pyStrip body) = some j →
        Fireeye.structuredFields j = none →
        Fireeye.parse_fireeye_email_body decode body = lineScan (pySplitlines body))
    ∧ Fireeye.parse_fireeye_email_body numericSrcDecode numericSrcBody = ("", "", "") := by
  refine ⟨rfl, ?_, ?_, ?_, ?_, rfl⟩
  · intro j hj
    cases j with
    | str s =>
      simp only [jTruthy, Bool.not_eq_false', decide_eq_true_eq] at hj
      subst hj
      rfl
    | null => rfl
    | bool b =>
      simp only [jTruthy] at hj
      subst hj
      rfl
    | num n =>
      simp only [jTruthy, bne_eq_false_iff_eq] at hj
      subst hj
      rfl
    | arr xs =>
      simp only [jTruthy, Bool.not_eq_false', List.isEmpty_iff] at hj
      subst hj
      rfl
    | obj fs =>
      simp only [jTruthy, Bool.not_eq_false', List.isEmpty_iff] at hj
      subst hj
      rfl
  · intro s; rfl
  · intro j hstr ht
    cases j with
    | str s => exact absurd rfl (hstr s)
    | null => simp [jTruthy] at ht
    | bool b => simp [pyOrEmptyStrip, ht]
    | num n => simp [pyOrEmptyStrip, ht]
    | arr xs => simp [pyOrEmptyStrip, ht]
    | obj fs => simp [pyOrEmptyStrip, ht]
  · intro decode body j hbr hdec hf
    unfold Fireeye.parse_fireeye_email_body Fireeye.structuredAttempt
    simp only [hbr, hdec, hf, if_true]

/-- C3 witness: the amended fall-through applied at the counterexample
input. -/
theorem C3_nontext_fields_witness :
    Fireeye.parse_fireeye_email_body numericSrcDecode numericSrcBody =
      lineScan (pySplitlines numericSrcBody) :=
  C3_nontext_fields.2.2.2.2.1 numericSrcDecode numericSrcBody numericSrcValue
    (by decide) rfl rfl

/-- C4 counterexample: for the record with city "from,()", country "C" and
organization "O", the composed string with all whitespace removed is
"fromfrom,(),C(O)", which is not the degenerate pattern, so the claim
requires the composed text to be returned; the code nevertheless returns
absence, because it tests substring containment of the space-normalized
text rather than whole-string equality. -/
theorem C4_counterexample :
    specStripAllWs (Enrich.composeAttribution degenerateCityDetails) ≠ "from,()"
    ∧ Enrich.safe_ipinfo_lookup (fun _ => some degenerateCityDetails) "203.0.113.45" =
        none :=
  ⟨by decide, by decide⟩

/-- C4 amended: when the shape check passes and the external call does not
fault, the formatter returns absence exactly when the composed string with
its space characters (U+0020) removed contains the degenerate pattern
"from,()" as a substring; in every other case it returns the composed text
with its original spacing — in particular the Ashburn record yields
"from Ashburn, United States (AS0 Example)". -/
theorem C4_attribution_format :
    (∀ (g : String → Option Enrich.IpDetails) (ip : String) (d : Enrich.IpDetails),
      Enrich.ipShapeCheck ip = true → g ip = some d →
      ((containsSubstr (removeSpaces (Enrich.composeAttribution d)) "from,()" = true →
          Enrich.safe_ipinfo_lookup g ip = none)
       ∧ (containsSubstr (removeSpaces (Enrich.composeAttribution d)) "from,()" = false →
          Enrich.safe_ipinfo_lookup g ip = some (Enrich.composeAttribution d))))
    ∧ (∀ g : String → Option Enrich.IpDetails,
        g "203.0.113.45" = some ashburnDetails →
        Enrich.safe_ipinfo_lookup g "203.0.113.45" =
          some "from Ashburn, United States (AS0 Example)") := by
  constructor
  · intro g ip d hshape hg
    unfold Enrich.safe_ipinfo_lookup Enrich.lookupFormat
    simp only [hshape, if_true, hg]
    constructor
    · intro hc
      rw [if_pos (Or.inl hc)]
    · intro hc
      rw [if_neg ?_]
      rintro (h | h)
      · rw [hc] at h
        exact absurd h (by simp)
      · rw [h] at hc
        rw [containsSubstr_self] at hc
        exact absurd hc (by simp)
  · intro g hg
    unfold Enrich.safe_ipinfo_lookup Enrich.lookupFormat
    simp only [show Enrich.ipShapeCheck "203.0.113.45" = true from by decide, if_true, hg]
    decide

/-- C4 witness: the amended theorem applied to the Ashburn record. -/
theorem C4_attribution_format_witness :
    Enrich.safe_ipinfo_lookup (fun _ => some ashburnDetails) "203.0.113.45" =
      some "from Ashburn, United States (AS0 Example)" :=
  C4_attribution_format.2 (fun _ => some ashburnDetails) rfl

/-- C5 counterexample: "203.0.113.45\n" is not a dotted quad of four digit
groups (it carries a trailing newline), yet it passes the code's shape
check — Python's `$` also matches just before a final newline — and is
forwarded to the external lookup, whose result is returned: the outcome
depends on the lookup oracle, so the lookup is invoked. -/
theorem C5_counterexample :
    Enrich.specDottedQuad "203.0.113.45\n" = false
    ∧ Enrich.safe_ipinfo_lookup (fun _ => some ashburnDetails) "203.0.113.45\n" =
        some "from Ashburn, United States (AS0 Example)"
    ∧ Enrich.safe_ipinfo_lookup (fun _ => none) "203.0.113.45\n" = none :=
  ⟨by decide, by decide, by decide⟩

/-- C5 amended: an address failing the regex shape check yields absence
without the external lookup being consulted, an address passing it is
forwarded to the lookup; every strict dotted quad passes, and every string
that passes is either a strict dotted quad or ends in a newline (the
Python `$` concession); "999.999.999.999" passes, so the 0-255 range is
not validated. -/
theorem C5_shape_gate :
    (∀ (g : String → Option Enrich.IpDetails) (ip : String),
      Enrich.ipShapeCheck ip = false → Enrich.safe_ipinfo_lookup g ip = none)
    ∧ (∀ (g : String → Option Enrich.IpDetails) (ip : String),
      Enrich.ipShapeCheck ip = true →
        Enrich.safe_ipinfo_lookup g ip = Enrich.lookupFormat g ip)
    ∧ (∀ ip : String, Enrich.specDottedQuad ip = true → Enrich.ipShapeCheck ip = true)
    ∧ (∀ ip : String, Enrich.ipShapeCheck ip = true →
        Enrich.specDottedQuad ip = true ∨ ip.data.getLast? = some '\n')
    ∧ Enrich.ipShapeCheck "999.999.999.999" = true := by
  refine ⟨?_, ?_, ?_, ?_, by decide⟩
  · intro g ip h
    unfold Enrich.safe_ipinfo_lookup
    simp [h]
  · intro g ip h
    unfold Enrich.safe_ipinfo_lookup
    simp [h]
  · intro ip h
    cases hm : Enrich.matchQuad ip.data with
    | none => simp [Enrich.specDottedQuad, hm] at h
    | some r =>
      cases r with
      | nil => simp [Enrich.ipShapeCheck, hm]
      | cons c cs => simp [Enrich.specDottedQuad, hm] at h
  · intro ip h
    unfold Enrich.ipShapeCheck at h
    cases hm : Enrich.matchQuad ip.data with
    | none => rw [hm] at h; exact absurd h (by simp)
    | some r =>
      rw [hm] at h
      simp only [Bool.or_eq_true, List.isEmpty_iff, decide_eq_true_eq] at h
      rcases h with h | h
      · subst h
        left
        simp [Enrich.specDottedQuad, hm]
      · subst h
        right
        obtain ⟨p, hp⟩ := matchQuad_suffix ip.data ['\n'] hm
        rw [hp]
        exact List.getLast?_concat p

/-- C5 witness: a string failing the shape check yields absence. -/
theorem C5_shape_gate_witness :
    Enrich.safe_ipinfo_lookup (fun _ => some ashburnDetails) "not-an-ip" = none :=
  C5_shape_gate.1 (fun _ => some ashburnDetails) "not-an-ip" (by decide)

/-- C6: parse never fails and signals absence by empty text (it is a total
function into string triples by construction); whenever the structured
attempt falls through — not brace-delimited, decode failure, all fields
empty, or an internal fault — and no line of the body matches a signature,
marker or address pattern, parse returns ("", "", ""); this covers the
inert fallback that re-scans the text of a JSON object lacking the
expected keys. -/
theorem C6_parse_total_empty :
    ∀ (decode : String → Option PyJson) (body : String),
      Fireeye.structuredAttempt decode body = none →
      (∀ l ∈ pySplitlines body, classify l = LineKind.other) →
      Fireeye.parse_fireeye_email_body decode body = ("", "", "") := by
  intro decode body hatt hlines
  rw [parse_of_attempt_none _ _ hatt]
  exact lineScan_other _ hlines

/-- C6 witness: a JSON body lacking all three keys decodes, falls through,
and the inert line-mode re-scan returns all-empty fields. -/
theorem C6_parse_total_empty_witness :
    Fireeye.parse_fireeye_email_body inertJsonDecode inertJsonBody = ("", "", "") :=
  C6_parse_total_empty inertJsonDecode inertJsonBody rfl (by decide)

theorem attribution_line_eq (hh : Bool) (lf : String → Option String) (src : String) :
    (if hh ∧ src ≠ "" then
      match lf (pyStrip src) with
      | some attribution =>
        if attribution = "" then "\t\tUNIDENTIFIED\n" else "\t\t" ++ attribution ++ "\n"
      | none => "\t\tUNIDENTIFIED\n"
     else "\t\tUNIDENTIFIED\n") =
    (if hh ∧ src ≠ "" ∧ (lf (pyStrip src)).getD "" ≠ "" then
      "\t\t" ++ (lf (pyStrip src)).getD "" ++ "\n"
     else "\t\tUNIDENTIFIED\n") := by
  by_cases h1 : hh = true
  · by_cases h2 : src = ""
    · simp [h1, h2]
    · cases hlf : lf (pyStrip src) with
      | none => simp [h1, h2, hlf]
      | some a =>
        by_cases ha : a = ""
        · simp [h1, h2, hlf, ha]
        · simp [h1, h2, hlf, ha]
  · simp [h1]

/-- C7: the digest assembler emits, per alert in arrival order, exactly the
header line, then the source line, then either the attribution line (when a
lookup capability is present, the parsed source is non-empty, and the
lookup produced a present — non-empty — attribution) or the UNIDENTIFIED
line in every other case. -/
theorem C7_digest_lines :
    ∀ (decode : String → Option PyJson) (hasHandler : Bool)
      (lookupFn : String → Option String) (msgs : List Fireeye.AlertMsg),
      Fireeye.iter_alert_lines decode hasHandler lookupFn msgs =
        msgs.flatMap (fun m =>
          [(match m.sentTime with
            | some t => t
            | none => "UnknownTime") ++ ": " ++
            (if (Fireeye.parse_fireeye_email_body decode m.body).1 = "" then "UnknownSig"
             else (Fireeye.parse_fireeye_email_body decode m.body).1) ++ " - " ++
            (if (Fireeye.parse_fireeye_email_body decode m.body).2.2 = "" then "UnknownDst"
             else (Fireeye.parse_fireeye_email_body decode m.body).2.2) ++ "\n",
           "\t\tSource: " ++
            (if (Fireeye.parse_fireeye_email_body decode m.body).2.1 = "" then "UnknownSrc"
             else (Fireeye.parse_fireeye_email_body decode m.body).2.1) ++ "\n",
           if hasHandler ∧ (Fireeye.parse_fireeye_email_body decode m.body).2.1 ≠ "" ∧
               (lookupFn (pyStrip (Fireeye.parse_fireeye_email_body decode m.body).2.1)).getD ""
                 ≠ "" then
             "\t\t" ++
               (lookupFn (pyStrip (Fireeye.parse_fireeye_email_body decode m.body).2.1)).getD ""
               ++ "\n"
           else "\t\tUNIDENTIFIED\n"]) := by
  intro decode hh lf msgs
  induction msgs with
  | nil => rfl
  | cons m ms ih =>
    simp only [Fireeye.iter_alert_lines, List.flatMap_cons, ih, List.cons_append,
      List.nil_append]
    refine congrArg₂ List.cons rfl (congrArg₂ List.cons rfl (congrArg₂ List.cons ?_ rfl))
    exact attribution_line_eq hh lf _

/-- C8: parse is a pure function of its body text (and of the fixed
`json.loads` collaborator) in this embedding: repeated calls on the same
body yield identical result triples; no state survives a call. -/
theorem C8_parse_deterministic :
    ∀ (decode : String → Option PyJson) (body : String),
      Fireeye.parse_fireeye_email_body decode body =
        Fireeye.parse_fireeye_email_body decode body :=
  fun _ _ => rfl

/-- C9: whenever the trimmed body does not both begin with a left brace and
end with a right brace, the JSON-first parser of `src/parsers/fireeye.py`
agrees with the line-mode-only parser of `src/maIn.py`. -/
theorem C9_parsers_agree :
    ∀ (decode : String → Option PyJson) (body : String),
      (pyStartsWith (pyStrip body) "\x7b" = false ∨
        pyEndsWith (pyStrip body) "\x7d" = false) →
      Fireeye.parse_fireeye_email_body decode body = MaIn.parse_fireeye_email_body body := by
  intro decode body h
  have hb : Fireeye.braced (pyStrip body) = false := by
    unfold Fireeye.braced
    rcases h with h | h <;> simp [h]
  rw [parse_of_attempt_none _ _ (structuredAttempt_not_braced _ _ hb)]
  rfl

/-- C9 witness: agreement at a plain line-mode body. -/
theorem C9_parsers_agree_witness :
    Fireeye.parse_fireeye_email_body (fun _ => none) "sig-name: Test Alert" =
      MaIn.parse_fireeye_email_body "sig-name: Test Alert" :=
  C9_parsers_agree (fun _ => none) "sig-name: Test Alert" (Or.inl (by decide))

/-- C10: an address line whose value is empty (`ip:` followed only by
whitespace) still classifies as an address line with value "", and on an
armed state it sets the source accumulator to empty text and lowers the
flag, so a later address line goes to the destination: on the body
["src:", "ip:", "ip: 198.51.100.10"] the scan yields
("", "", "198.51.100.10"). -/
theorem C10_empty_addr_consumes_marker :
    (∀ w : String, (∀ c ∈ w.data, isPySpace c = true) →
      classify ⟨'i' :: 'p' :: ':' :: w.data⟩ = LineKind.addr "")
    ∧ (∀ st : ScanSt, st.armed = true →
      scanStep st (.addr "") = { st with src := "", armed := false })
    ∧ lineScan ["src:", "ip:", "ip: 198.51.100.10"] = ("", "", "198.51.100.10") := by
  refine ⟨?_, ?_, by decide⟩
  · intro w hw
    have hdrop : w.data.dropWhile isPySpace = [] :=
      List.dropWhile_eq_nil_iff.mpr hw
    have hcl : classify ⟨'i' :: 'p' :: ':' :: w.data⟩ =
        LineKind.addr ⟨pyStripList w.data⟩ := rfl
    rw [hcl]
    have hnil : pyStripList w.data = [] := by
      rw [pyStripList, hdrop]
      rfl
    rw [hnil]
  · intro st h
    simp [scanStep, h]

/-- C10 witness: the classification applied at a concrete whitespace tail. -/
theorem C10_empty_addr_consumes_marker_witness :
    classify ⟨'i' :: 'p' :: ':' :: (" " : String).data⟩ = LineKind.addr "" :=
  C10_empty_addr_consumes_marker.1 " " (by decide)
